import Mathlib

/-!
# Verification of the better-future deferred-task library

This file gives a shallow embedding in Lean 4 of the parts of the
better-future TypeScript library that the specification talks about:

* the `Future` lifecycle state machine (`src/unnamed/part_000`,
  `src/state.ts`, `src/utils.ts`);
* the shared `FutureState` pause/resume machinery and the `runable`
  gate (`src/future-state.ts`);
* the bounded-concurrency `TaskPool` (`src/task-pool.ts`);
* the `TaskGroup` REDUCE wiring (`src/task-group.ts`);
* the `arithmetic_mean` streaming reducer (`src/reducers.ts`);
* the `MinHeap` priority queue (`src/unnamed/part_013`).

Each definition is translated from the source file and line range noted
in its doc comment.  JavaScript numbers are modelled as `Int` (all the
arithmetic involved is integer arithmetic), `undefined` as `Option.none`,
and asynchronous settlement as explicit events applied to explicit state
records.
-/

namespace BetterFuture

/-- The lifecycle states of a `Future`, from `src/state.ts` (enum `State`,
lines 11-69). -/
inductive State where
  | PENDING
  | DELAY
  | RUNNING
  | PAUSED
  | FULFILLED
  | REJECTED
  | TIMEOUT
  | CANCELLED
deriving DecidableEq, Repr

open State

/-- `isTerminalState`, from `src/utils.ts` lines 112-116:
a state is terminal iff it is FULFILLED, TIMEOUT, CANCELLED or REJECTED. -/
def isTerminalState (s : State) : Bool :=
  s = FULFILLED || s = TIMEOUT || s = CANCELLED || s = REJECTED

/-- The exception taxonomy of `src/utils.ts` (FutureException subclasses),
reduced to the tags the state machine distinguishes.  `userExn n` stands
for an arbitrary exception thrown or rejected by the user computation. -/
inductive Exn where
  | timeoutExn
  | cancelledExn
  | finishedExn
  | userExn (n : Nat)
deriving DecidableEq, Repr

/--
State of one task identity, i.e. of one `FutureState` shared by a
`Future` and all futures derived from it, as used by the `Future` class
in `src/unnamed/part_000`.

* `state` is `FutureState.state`;
* `taskAlive` is whether `#s.task` is still non-null (the stored wrapper,
  part_000 lines 184-211; it is nulled on first invocation and by
  `#resolved`);
* `invocations` counts how many times the wrapped user computation has
  been invoked (a ghost counter: the source has no such field, the
  count is what the claims are about);
* `compPending` is whether the wrapper is currently suspended at
  `await t.call(...)` (part_000 line 200) waiting for the user
  computation to settle;
* `exception` is `FutureState.exception`;
* `canCancel` — Modelled from the spec: the `FutureState` variant that
  `src/unnamed/part_000` imports (the one with `canCancel`, `auxPromise`
  and `legacyTask`) is not among the repository sources; per the spec,
  cancellation "must be enabled at the time of creation ... via the
  `FutureOptions#cancel` parameter", so `canCancel` is the constructor's
  `cancel` option, fixed at construction.
-/
structure FutureSt where
  state : State
  taskAlive : Bool
  invocations : Nat
  compPending : Bool
  exception : Option Exn
  canCancel : Bool
deriving DecidableEq, Repr

/-- A freshly constructed future (part_000 constructor, non-derived
branch, lines 165-217): state PENDING, wrapper stored, computation not
yet invoked. -/
def futureInit (cancel : Bool) : FutureSt :=
  { state := PENDING
    taskAlive := true
    invocations := 0
    compPending := false
    exception := none
    canCancel := cancel }

/-- `Future.#resolved` (part_000 lines 231-240): if the current state is
not terminal, set the new state and record the exception; in any case
null out the task (and reject the aux promise / run the handler, which
have no effect on the fields modelled here). -/
def resolvedStep (s : FutureSt) (st : State) (e : Exn) : FutureSt :=
  let s1 := if !isTerminalState s.state then { s with state := st, exception := some e } else s
  { s1 with taskAlive := false }

/--
Invoking the stored wrapper, as done by `then` (part_000 line 258) and
`start` (line 327) via `this.#s.task?.call(...)`.

The wrapper (part_000 lines 184-211, no-delay non-legacy path) first
nulls `#s.task` ("Only run once."), then sets the state to RUNNING,
records the start time, fires the start handlers, and invokes the user
computation, suspending at `await t.call(this.#s.context, ...)`.
If the task slot is already null the call does nothing.
-/
def invokeTask (s : FutureSt) : FutureSt :=
  if s.taskAlive then
    { s with
      taskAlive := false
      state := RUNNING
      invocations := s.invocations + 1
      compPending := true }
  else s

/-- The wrapper resuming after the user computation resolved
(part_000 lines 200-201): `resolve(await t.call(...))` followed by the
unguarded assignment `this.#s.state = State.FULFILLED`. -/
def compSettleOk (s : FutureSt) : FutureSt :=
  if s.compPending then
    { s with compPending := false, state := FULFILLED }
  else s

/-- The wrapper catch branch (part_000 lines 203-210): if the state is
not already terminal ("Not if this is already resolved."), record the
exception and set the state to REJECTED; then reject the promise. -/
def compSettleErr (s : FutureSt) (e : Exn) : FutureSt :=
  if s.compPending then
    let s1 :=
      if !isTerminalState s.state then { s with exception := some e, state := REJECTED } else s
    { s1 with compPending := false }
  else s

/-- A timeout timer firing (part_000 lines 174-181): constructs a
`TimeoutException` and calls `#resolved(State.TIMEOUT, ...)`. -/
def timerFire (s : FutureSt) : FutureSt :=
  resolvedStep s TIMEOUT Exn.timeoutExn

/-- `Future.cancel` (part_000 lines 358-370).  If cancellation was not
enabled it throws synchronously (`none`); otherwise it calls
`#resolved(State.CANCELLED, ...)` with a `CancelledException`. -/
def cancelStep (s : FutureSt) : Option FutureSt :=
  if !s.canCancel then none
  else some (resolvedStep s CANCELLED Exn.cancelledExn)

/-- The events that can act on one task identity: `start()` / `then()`
(both invoke the stored wrapper), `cancel()`, a timeout timer firing,
and the user computation settling (resolving or rejecting). -/
inductive Ev where
  | start
  | thenOp
  | cancel
  | timer
  | settleOk
  | settleErr (e : Exn)
deriving DecidableEq, Repr

/-- One event step.  A `cancel` on a future without cancellation enabled
throws before mutating anything (part_000 lines 359-361), so the state
is unchanged. -/
def stepEv (s : FutureSt) : Ev → FutureSt
  | Ev.start => invokeTask s
  | Ev.thenOp => invokeTask s
  | Ev.cancel => (cancelStep s).getD s
  | Ev.timer => timerFire s
  | Ev.settleOk => compSettleOk s
  | Ev.settleErr e => compSettleErr s e

/-- Run a sequence of events from a state. -/
def runEvs (s : FutureSt) (evs : List Ev) : FutureSt :=
  evs.foldl stepEv s

/-!
## The `FutureState` pause/resume machinery and the `runable` gate

Translated from `src/future-state.ts`.  The pause gate
(`#pausePromise` / `#resume`) is modelled by `gate : Option Bool`:
`none` when no pause promise has been created, `some false` for a
created, still unresolved promise, `some true` once `#resume` has been
called on it.
-/

/-- The fields of `src/future-state.ts` `FutureState` that the pause /
resume / runable logic reads and writes: `state` (line 137),
`#pauseLevel` (line 152, a JS number, modelled as `Int`), the pause
gate (`#pausePromise` / `#resume`, lines 142-147) and `exception`
(line 135). -/
structure FS where
  state : State
  pauseLevel : Int
  gate : Option Bool
  exception : Option Exn
deriving DecidableEq, Repr

/-- `FutureState.#setPause` (future-state.ts lines 186-193): set the
state to PAUSED and, exactly when the (already incremented) pause level
is 1, create a fresh unresolved pause promise. -/
def setPause (s : FS) : FS :=
  let s1 := { s with state := PAUSED }
  if s1.pauseLevel = 1 then { s1 with gate := some false } else s1

/-- `FutureState.pause` (future-state.ts lines 194-199): increment the
pause level; if the state is RUNNING, enter the paused state. -/
def fsPause (s : FS) : FS :=
  let s1 := { s with pauseLevel := s.pauseLevel + 1 }
  if s1.state = RUNNING then setPause s1 else s1

/-- `FutureState.resume` (future-state.ts lines 201-209): only if the
pause level is positive, decrement it; if it reached 0 and the state is
PAUSED, return to RUNNING and resolve the pause promise
(`this.#resume?.(this.context)`). -/
def fsResume (s : FS) : FS :=
  if s.pauseLevel > 0 then
    let s1 := { s with pauseLevel := s.pauseLevel - 1 }
    if s1.pauseLevel = 0 ∧ s1.state = PAUSED then
      { s1 with state := RUNNING, gate := s1.gate.map (fun _ => true) }
    else s1
  else s

/-- What reading `FutureState.runable` (future-state.ts lines 168-184)
produces: a synchronous usage error, an immediately-ready promise of the
task context, the stored pause gate, an immediately-rejected promise
carrying the recorded exception, or an immediately-rejected promise
carrying a fresh `FinishedException`. -/
inductive RunableResult where
  | usageError
  | readyContext
  | pauseGate (g : Option Bool)
  | failedWith (e : Option Exn)
  | failedFinished
deriving DecidableEq, Repr

/-- `FutureState.runable` (future-state.ts lines 168-184), a case
analysis on the current state. -/
def runable (s : FS) : RunableResult :=
  match s.state with
  | PENDING => RunableResult.usageError
  | RUNNING => RunableResult.readyContext
  | PAUSED => RunableResult.pauseGate s.gate
  | TIMEOUT => RunableResult.failedWith s.exception
  | CANCELLED => RunableResult.failedWith s.exception
  | _ => RunableResult.failedFinished

/-!
## The `TaskPool` admission machinery

Translated from `src/task-pool.ts`.  Tasks are identified by `Nat` ids;
`queue` and `running` are the pool's two sets (JS `Set` preserves
insertion order, so both are modelled as lists), and `started` records
the tasks on which the pool has called `.resume().start()`.
-/

/-- The `TaskPool` fields relevant to admission (task-pool.ts lines
15-40): the concurrency ceiling `#size`, the waiting `#queue`, the
`#running` set, plus a ghost record `started` of tasks the admission
loop has started. -/
structure Pool where
  size : Nat
  queue : List Nat
  running : List Nat
  started : List Nat
deriving DecidableEq, Repr

/-- The `while` loop of `TaskPool.#run` (task-pool.ts lines 42-54):
while the queue is non-empty and fewer than `#size` tasks are running,
dequeue the first task (insertion order), add it to the running set and
start it (`task.resume().start()` with a `.finally` completion hook).
Returns the final queue, running set and started record. -/
def runLoopAux (size : Nat) :
    List Nat → List Nat → List Nat → List Nat × List Nat × List Nat
  | [], running, started => ([], running, started)
  | t :: rest, running, started =>
    if running.length < size then
      runLoopAux size rest (running ++ [t]) (started ++ [t])
    else (t :: rest, running, started)

/-- `TaskPool.#run` acting on a pool. -/
def poolRun (p : Pool) : Pool :=
  let r := runLoopAux p.size p.queue p.running p.started
  { p with queue := r.1, running := r.2.1, started := r.2.2 }

/-- `TaskPool.#addInternal` (task-pool.ts lines 56-61): enqueue the
task, pause it, and run the admission loop. -/
def poolAdd (p : Pool) (t : Nat) : Pool :=
  poolRun { p with queue := p.queue ++ [t] }

/-- The completion hook registered at admission (task-pool.ts line 52):
`.finally(() => this.#running.delete(task))`.  It removes the task from
the running set and does nothing else — in particular it does not call
`#run` again. -/
def poolComplete (p : Pool) (t : Nat) : Pool :=
  { p with running := p.running.erase t }

/-- Pool events: `add` (task-pool.ts `add`) and a running task settling
(its `.finally` hook firing). -/
inductive PoolEv where
  | add (t : Nat)
  | complete (t : Nat)
deriving DecidableEq, Repr

/-- One pool event step. -/
def poolStep (p : Pool) : PoolEv → Pool
  | PoolEv.add t => poolAdd p t
  | PoolEv.complete t => poolComplete p t

/-- Run a sequence of pool events. -/
def poolTrace (p : Pool) (evs : List PoolEv) : Pool :=
  evs.foldl poolStep p

/-- An empty pool with the given concurrency ceiling (task-pool.ts
constructor, lines 38-40: only `#size` is assigned). -/
def poolInit (size : Nat) : Pool :=
  { size := size, queue := [], running := [], started := [] }

/-!
## The static combinators `race` / `all` / `allSettled` / `any`

Translated from `src/unnamed/part_000` lines 491-533.  Each combinator
constructs `new Future(() => Promise.xxx(thenables))`: the `Future`
constructor stores the closure as the wrapper without invoking it, so
the member futures are not touched at construction.  When the combinator
is started (`start()` or `then()`, which invoke the wrapper), the
closure runs `Promise.xxx(thenables)`, and the host combinator
subscribes to every member via its `then` method — which for a `Future`
member starts that member's task (part_000 line 258).
-/

/-- A combinator world: the combinator future together with the member
futures handed to the combinator's argument iterable. -/
structure CombWorld where
  comb : FutureSt
  members : List FutureSt
deriving DecidableEq, Repr

/-- `Future.race` (part_000 lines 491-493):
`new Future(() => Promise.race(thenables))`.  The constructor stores the
closure; nothing is invoked on the members. -/
def futureRace (members : List FutureSt) : CombWorld :=
  { comb := futureInit false, members := members }

/-- `Future.all` (part_000 lines 503-505). -/
def futureAll (members : List FutureSt) : CombWorld :=
  { comb := futureInit false, members := members }

/-- `Future.allSettled` (part_000 lines 520-522). -/
def futureAllSettled (members : List FutureSt) : CombWorld :=
  { comb := futureInit false, members := members }

/-- `Future.any` (part_000 lines 531-533). -/
def futureAny (members : List FutureSt) : CombWorld :=
  { comb := futureInit false, members := members }

/-- Starting a combinator world (part_000 `start`, line 326, or `then`,
line 257): if the combinator's wrapper is still stored, it is invoked;
the closure calls the host `Promise` combinator, which subscribes to
every member via `then`, invoking each member's stored task
(part_000 line 258).  If the wrapper is already consumed nothing
happens. -/
def combStart (w : CombWorld) : CombWorld :=
  if w.comb.taskAlive then
    { comb := invokeTask w.comb, members := w.members.map invokeTask }
  else w

/-!
## The `TaskGroup` REDUCE wiring

Translated from the `TaskGroupResultType.REDUCE` case of the
`TaskGroup` constructor, `src/task-group.ts` lines 159-180, together
with the reducer creation at lines 132-138.  When the group's own
computation runs (at group start), each normal member `t` with index
`tidx` gets `t.then(acceptor, rejector)` registered, where
`acceptor(v)` calls `this.#reducer?.next([v, tidx])` and
`rejector(e)` calls `this.#reducer?.throw(e)`; exceptions from the
reducer call `rejected(e)`.  That `forEach` is the whole REDUCE case:
the local `let count = 0` is never read or written again, no code sends
the sentinel pair `[undefined, -1]`, and no code ever calls
`fulfilled`.
-/

/-- Observable state of a REDUCE-policy group after start: how many
normal members have settled, the exact list of pairs passed to
`reducer.next` (value `none` models `undefined`), whether `fulfilled`
has been called (and with what), and whether `rejected` has been
called. -/
structure ReduceGroup where
  memberCount : Nat
  settled : Nat
  sentPairs : List (Option Int × Int)
  groupResult : Option Int
  groupRejected : Option Exn
deriving DecidableEq, Repr

/-- A REDUCE group immediately after its computation ran (task-group.ts
lines 159-180): `then` handlers registered on all members, nothing sent
to the reducer yet, group neither fulfilled nor rejected. -/
def reduceGroupInit (n : Nat) : ReduceGroup :=
  { memberCount := n
    settled := 0
    sentPairs := []
    groupResult := none
    groupRejected := none }

/-- A normal member with index `tidx` fulfilling with value `v`: its
`acceptor` (task-group.ts lines 164-170) runs, passing `[v, tidx]` to
`reducer.next`.  No other group state changes: the REDUCE case contains
no completion tracking, no sentinel send and no `fulfilled` call. -/
def memberFulfill (g : ReduceGroup) (v : Int) (tidx : Nat) : ReduceGroup :=
  { g with
    settled := g.settled + 1
    sentPairs := g.sentPairs ++ [(some v, (tidx : Int))] }

/-- Fold a list of member fulfillments (value, index) into the group. -/
def settleAll (g : ReduceGroup) (vs : List (Int × Nat)) : ReduceGroup :=
  vs.foldl (fun g p => memberFulfill g p.1 p.2) g

/-!
## The `arithmetic_mean` streaming reducer

Translated from `src/reducers.ts` lines 11-23.  The generator keeps two
locals `n` and `m`, both initialised to 0; each resumption receives a
pair `[v, idx]`, increments `n`, and on the sentinel index `-1` either
throws "No data for an average" (if `n === 0`) or returns `m`.
The received value `v` is never used and `m` is never reassigned.
-/

/-- What a driven generator ends up doing: still suspended awaiting more
input, terminated by a thrown exception (the "No data for an average"
Error), or returned a value. -/
inductive ReducerOutcome where
  | suspended
  | threw
  | returned (v : Int)
deriving DecidableEq, Repr

/-- The resumption loop of `arithmetic_mean` (reducers.ts lines 12-22),
driven by a list of `(value, index)` pairs (value `none` models
`undefined`). -/
def arithmeticMeanLoop (n m : Int) : List (Option Int × Int) → ReducerOutcome
  | [] => ReducerOutcome.suspended
  | (_v, idx) :: rest =>
    let n1 := n + 1
    if idx = -1 then
      if n1 = 0 then ReducerOutcome.threw
      else ReducerOutcome.returned m
    else arithmeticMeanLoop n1 m rest

/-- `arithmetic_mean` driven on a list of inputs: `n = 0`, `m = 0`
(reducers.ts lines 12-13), then the receive loop. -/
def arithmeticMeanRun (inputs : List (Option Int × Int)) : ReducerOutcome :=
  arithmeticMeanLoop 0 0 inputs

/-!
## The `MinHeap`

Translated from `src/unnamed/part_013`.  The heap array is an
`Array Int` and the key function maps elements to `Int` keys.  JS array
index accesses out of range yield `undefined`; they do not occur on the
paths modelled here, and `getD _ 0` is used for element access.
-/

/-- Swap two positions of the heap array
(`[heap[parent], heap[i]] = [heap[i], heap[parent]]`). -/
def swapAt (a : Array Int) (i j : Nat) : Array Int :=
  let x := a.getD i 0
  let y := a.getD j 0
  (a.setD i y).setD j x

/-- The sift-up `while` loop of `MinHeap.add` (part_013 lines 60-67):
`while (i > 0 && pk > ik)` swap positions `parent = (i-1)/2` and `i`,
then move to `(i, parent) = (parent, floor((parent-1)/2))`.  The keys
`pk` and `ik` are captured before the loop and never recomputed inside
it — the loop condition compares the same two keys on every iteration.
`fuel` bounds the iteration count; since `i` strictly decreases each
iteration, `fuel = i` always suffices and the fuel-exhausted branch
(which returns the heap unchanged, like the `i = 0` exit) is never the
deciding exit. -/
def siftUp (key : Int → Int) : Nat → Array Int → Nat → Int → Int → Array Int
  | 0, heap, _, _, _ => heap
  | _fuel + 1, heap, i, pk, ik =>
    if i > 0 ∧ pk > ik then
      siftUp key _fuel (swapAt heap ((i - 1) / 2) i) ((i - 1) / 2) pk ik
    else heap

/-- `MinHeap.add` (part_013 lines 42-69): push the item; when the
resulting length is 2, swap the two elements if out of order; when it
is greater than 2, run the sift-up loop from `i = length - 1` with
`parent = (i-1)/2` and the two keys captured once. -/
def minHeapAdd (key : Int → Int) (heap : Array Int) (item : Int) : Array Int :=
  let heap1 := heap.push item
  if heap1.size = 2 then
    if key (heap1.getD 0 0) > key (heap1.getD 1 0) then swapAt heap1 0 1 else heap1
  else if heap1.size > 2 then
    let i := heap1.size - 1
    let parent := (i - 1) / 2
    let pk := key (heap1.getD parent 0)
    let ik := key (heap1.getD i 0)
    siftUp key i heap1 i pk ik
  else heap1

/-- `MinHeap.peek` (part_013 lines 34-36): the element at index 0
(`undefined` on an empty heap; not exercised here). -/
def minHeapPeek (heap : Array Int) : Int :=
  heap.getD 0 0

/-- A sequence of `add` operations starting from the empty heap
(`#heap: Array<T> = []`, part_013 line 17). -/
def minHeapOfList (key : Int → Int) (items : List Int) : Array Int :=
  items.foldl (minHeapAdd key) (Array.mkEmpty 0)

/-!
## Helper lemmas
-/

/-- `resolvedStep` never changes the invocation count. -/
lemma resolvedStep_invocations (s : FutureSt) (st : State) (e : Exn) :
    (resolvedStep s st e).invocations = s.invocations := by
  unfold resolvedStep
  split <;> rfl

/-- `resolvedStep` always nulls out the task slot. -/
lemma resolvedStep_taskAlive (s : FutureSt) (st : State) (e : Exn) :
    (resolvedStep s st e).taskAlive = false := by
  unfold resolvedStep
  split <;> rfl

/-- Settling the computation does not change the invocation count. -/
lemma compSettleOk_invocations (s : FutureSt) :
    (compSettleOk s).invocations = s.invocations := by
  unfold compSettleOk
  split <;> rfl

/-- Settling the computation does not restore the task slot. -/
lemma compSettleOk_taskAlive (s : FutureSt) :
    (compSettleOk s).taskAlive = s.taskAlive := by
  unfold compSettleOk
  split <;> rfl

/-- Rejection of the computation does not change the invocation count. -/
lemma compSettleErr_invocations (s : FutureSt) (e : Exn) :
    (compSettleErr s e).invocations = s.invocations := by
  unfold compSettleErr
  split <;> (try split) <;> rfl

/-- Rejection of the computation does not restore the task slot. -/
lemma compSettleErr_taskAlive (s : FutureSt) (e : Exn) :
    (compSettleErr s e).taskAlive = s.taskAlive := by
  unfold compSettleErr
  split <;> (try split) <;> rfl

/-- The at-most-once invariant: while the task slot is still occupied the
computation has never been invoked, and it is never invoked twice. -/
def AtMostOnce (s : FutureSt) : Prop :=
  (s.taskAlive = true → s.invocations = 0) ∧ s.invocations ≤ 1

/-- Every event preserves the at-most-once invariant. -/
lemma stepEv_atMostOnce (s : FutureSt) (ev : Ev) (h : AtMostOnce s) :
    AtMostOnce (stepEv s ev) := by
  obtain ⟨h1, h2⟩ := h
  cases ev with
  | start =>
    simp only [stepEv, invokeTask]
    by_cases hb : s.taskAlive = true
    · simp only [hb, if_true]
      exact ⟨fun hh => by simp at hh, by simp [h1 hb]⟩
    · simp only [hb, if_false]
      exact ⟨h1, h2⟩
  | thenOp =>
    simp only [stepEv, invokeTask]
    by_cases hb : s.taskAlive = true
    · simp only [hb, if_true]
      exact ⟨fun hh => by simp at hh, by simp [h1 hb]⟩
    · simp only [hb, if_false]
      exact ⟨h1, h2⟩
  | cancel =>
    simp only [stepEv, cancelStep]
    by_cases hc : s.canCancel = true
    · simp only [hc, Bool.not_true, Bool.false_eq_true, if_false, Option.getD_some]
      refine ⟨fun hh => ?_, ?_⟩
      · rw [resolvedStep_taskAlive] at hh
        cases hh
      · rw [resolvedStep_invocations]
        exact h2
    · simp only [Bool.not_eq_true] at hc
      simp only [hc, Bool.not_false, if_true, Option.getD_none]
      exact ⟨h1, h2⟩
  | timer =>
    simp only [stepEv, timerFire]
    refine ⟨fun hh => ?_, ?_⟩
    · rw [resolvedStep_taskAlive] at hh
      cases hh
    · rw [resolvedStep_invocations]
      exact h2
  | settleOk =>
    simp only [stepEv]
    refine ⟨fun hh => ?_, ?_⟩
    · rw [compSettleOk_taskAlive] at hh
      rw [compSettleOk_invocations]
      exact h1 hh
    · rw [compSettleOk_invocations]
      exact h2
  | settleErr e =>
    simp only [stepEv]
    refine ⟨fun hh => ?_, ?_⟩
    · rw [compSettleErr_taskAlive] at hh
      rw [compSettleErr_invocations]
      exact h1 hh
    · rw [compSettleErr_invocations]
      exact h2

/-- The at-most-once invariant is preserved by any event sequence. -/
lemma runEvs_atMostOnce (evs : List Ev) (s : FutureSt) (h : AtMostOnce s) :
    AtMostOnce (runEvs s evs) := by
  induction evs generalizing s with
  | nil => exact h
  | cons e es ih => exact ih (stepEv s e) (stepEv_atMostOnce s e h)

/-- `fsResume` is the identity at pause level 0. -/
lemma fsResume_levelZero (st : State) (g : Option Bool) (e : Option Exn) :
    fsResume ⟨st, 0, g, e⟩ = ⟨st, 0, g, e⟩ := by
  simp [fsResume]

/-- Iterating `fsResume` at pause level 0 stays put. -/
lemma fsResume_iterate_levelZero (j : Nat) (st : State) (g : Option Bool) (e : Option Exn) :
    (fsResume)^[j] ⟨st, 0, g, e⟩ = ⟨st, 0, g, e⟩ :=
  Function.iterate_fixed (fsResume_levelZero st g e) j

/-- Pausing an already paused state only increments the nesting level. -/
lemma fsPause_paused (lv : Int) (g : Option Bool) (e : Option Exn) :
    fsPause ⟨PAUSED, lv, g, e⟩ = ⟨PAUSED, lv + 1, g, e⟩ := by
  simp [fsPause, setPause]

/-- Iterated pauses on a paused state add to the nesting level. -/
lemma fsPause_iterate_paused (k : Nat) (lv : Int) (g : Option Bool) (e : Option Exn) :
    (fsPause)^[k] ⟨PAUSED, lv, g, e⟩ = ⟨PAUSED, lv + k, g, e⟩ := by
  induction k generalizing lv with
  | zero => simp
  | succ m ih =>
    rw [Function.iterate_succ_apply, fsPause_paused, ih]
    congr 1
    push_cast
    ring

/-- One resume on a paused state with positive level: decrement, and when
the level reaches 0 return to RUNNING and resolve the gate. -/
lemma fsResume_paused_pos (lv : Int) (hlv : 0 < lv) (g : Option Bool) (e : Option Exn) :
    fsResume ⟨PAUSED, lv, g, e⟩ =
      if lv = 1 then ⟨RUNNING, 0, g.map (fun _ => true), e⟩
      else ⟨PAUSED, lv - 1, g, e⟩ := by
  unfold fsResume
  simp only [hlv, if_true]
  by_cases h1 : lv = 1
  · simp [h1]
  · have h2 : ¬(lv - 1 = 0) := by omega
    simp [h1, h2]

/-- Iterated resumes on a properly paused state at level `n + 1`: the
state stays PAUSED with the gate unresolved until the level reaches 0,
at which point it returns to RUNNING with the gate resolved. -/
lemma fsResume_iterate_paused (j n : Nat) (e : Option Exn) :
    (fsResume)^[j] ⟨PAUSED, (n : Int) + 1, some false, e⟩ =
      if j ≤ n then ⟨PAUSED, (n : Int) + 1 - j, some false, e⟩
      else ⟨RUNNING, 0, some true, e⟩ := by
  induction j generalizing n with
  | zero => simp
  | succ m ih =>
    rw [Function.iterate_succ_apply,
      fsResume_paused_pos ((n : Int) + 1) (by positivity) (some false) e]
    cases n with
    | zero =>
      have h0 : ((0 : Nat) : Int) + 1 = 1 := by norm_num
      rw [h0, if_pos rfl]
      rw [fsResume_iterate_levelZero]
      have : ¬(m + 1 ≤ 0) := by omega
      simp [this]
    | succ p =>
      have h1 : ¬(((p + 1 : Nat) : Int) + 1 = 1) := by push_cast; omega
      rw [if_neg h1]
      have h2 : ((p + 1 : Nat) : Int) + 1 - 1 = ((p : Nat) : Int) + 1 := by push_cast; ring
      rw [h2, ih p]
      by_cases h3 : m ≤ p
      · have h4 : m + 1 ≤ p + 1 := by omega
        rw [if_pos h3, if_pos h4]
        congr 1
        push_cast
        ring
      · have h4 : ¬(m + 1 ≤ p + 1) := by omega
        rw [if_neg h3, if_neg h4]

/-!
## The claims
-/

/-- C1: the claim says that once a Future is in a terminal state, no
subsequent operation — including the computation settling — ever changes
the state again.  The code refutes this: for a cancellation-enabled
future that is started, then cancelled (reaching the terminal state
CANCELLED), the wrapper's unguarded `this.#s.state = State.FULFILLED`
(part_000 line 201) overwrites the terminal state with FULFILLED when
the computation later resolves.  This theorem evaluates the embedded
code on that failing trace. -/
theorem c1_terminal_state_overwritten :
    (runEvs (futureInit true) [Ev.start, Ev.cancel]).state = CANCELLED ∧
    isTerminalState (runEvs (futureInit true) [Ev.start, Ev.cancel]).state = true ∧
    (runEvs (futureInit true) [Ev.start, Ev.cancel, Ev.settleOk]).state = FULFILLED := by
  decide

/-- C2: for every task identity, the supplied computation is invoked at
most once, no matter how many `start()` / `then()` calls (or cancels,
timer fires and settlements) are performed, in any order. -/
theorem c2_computation_at_most_once (cancel : Bool) (evs : List Ev) :
    (runEvs (futureInit cancel) evs).invocations ≤ 1 :=
  (runEvs_atMostOnce evs (futureInit cancel) ⟨fun _ => rfl, Nat.zero_le 1⟩).2

/-- C3: the claim says that after the Nth and final member of a
REDUCE-policy group settles, the group sends the sentinel pair
`(undefined, -1)` to the reducer and fulfills with the reducer's return
value.  The code refutes this: the REDUCE case of the TaskGroup
constructor (task-group.ts lines 159-180) only forwards each member's
value to `reducer.next([v, tidx])`; it never tracks completion (its
`count` variable is never used), never sends `(undefined, -1)`, and
never calls `fulfilled`.  This theorem evaluates the embedded code on a
3-member group whose members fulfill with 10, 20 and 30. -/
theorem c3_reduce_no_sentinel_no_fulfillment :
    (settleAll (reduceGroupInit 3) [(10, 0), (20, 1), (30, 2)]).settled =
      (reduceGroupInit 3).memberCount ∧
    (settleAll (reduceGroupInit 3) [(10, 0), (20, 1), (30, 2)]).sentPairs =
      [(some 10, 0), (some 20, 1), (some 30, 2)] ∧
    ((none, -1) ∉ (settleAll (reduceGroupInit 3) [(10, 0), (20, 1), (30, 2)]).sentPairs) ∧
    (settleAll (reduceGroupInit 3) [(10, 0), (20, 1), (30, 2)]).groupResult = none := by
  decide

/-- C4: reading the runnable gate is a total case analysis on the
current state: PENDING raises a synchronous usage error; RUNNING yields
an immediately-ready awaitable of the task context; PAUSED yields the
pause gate, which resolves exactly when the pause depth returns to zero
(and a resume resolves a gate only at depth zero); CANCELLED and
TIMEOUT yield an immediately-failed awaitable carrying the recorded
failure; the other terminal states FULFILLED and REJECTED yield an
awaitable failed with FinishedException. -/
theorem c4_runable_case_analysis :
    (∀ (lv : Int) (g : Option Bool) (e : Option Exn),
      runable ⟨PENDING, lv, g, e⟩ = RunableResult.usageError) ∧
    (∀ (lv : Int) (g : Option Bool) (e : Option Exn),
      runable ⟨RUNNING, lv, g, e⟩ = RunableResult.readyContext) ∧
    (∀ (lv : Int) (g : Option Bool) (e : Option Exn),
      runable ⟨PAUSED, lv, g, e⟩ = RunableResult.pauseGate g) ∧
    (∀ (lv : Int) (g : Option Bool) (e : Option Exn),
      runable ⟨CANCELLED, lv, g, e⟩ = RunableResult.failedWith e) ∧
    (∀ (lv : Int) (g : Option Bool) (e : Option Exn),
      runable ⟨TIMEOUT, lv, g, e⟩ = RunableResult.failedWith e) ∧
    (∀ (lv : Int) (g : Option Bool) (e : Option Exn),
      runable ⟨FULFILLED, lv, g, e⟩ = RunableResult.failedFinished) ∧
    (∀ (lv : Int) (g : Option Bool) (e : Option Exn),
      runable ⟨REJECTED, lv, g, e⟩ = RunableResult.failedFinished) ∧
    (∀ (n j : Nat) (e : Option Exn),
      ((fsResume)^[j] (⟨PAUSED, (n : Int) + 1, some false, e⟩ : FS)).gate =
        some (decide (n + 1 ≤ j))) ∧
    (∀ s : FS, (fsResume s).gate =
      if s.pauseLevel = 1 ∧ s.state = PAUSED then s.gate.map (fun _ => true) else s.gate) := by
  refine ⟨?_, ?_, ?_, ?_, ?_, ?_, ?_, ?_, ?_⟩ <;> try (intro lv g e; rfl)
  · intro n j e
    rw [fsResume_iterate_paused]
    by_cases h : j ≤ n
    · have h2 : ¬(n + 1 ≤ j) := by omega
      simp [h, h2]
    · have h2 : n + 1 ≤ j := by omega
      simp [h, h2]
  · intro s
    obtain ⟨st, lv, g, e⟩ := s
    unfold fsResume
    by_cases hpos : lv > 0
    · simp only [hpos, if_true]
      by_cases h1 : lv - 1 = 0 ∧ st = PAUSED
      · have hlv : lv = 1 := by omega
        simp [h1, hlv, h1.2]
      · have h2 : ¬(lv = 1 ∧ st = PAUSED) := by
          intro hc
          exact h1 ⟨by omega, hc.2⟩
        simp [h1, h2]
    · have h2 : ¬(lv = 1 ∧ st = PAUSED) := by
        intro hc
        omega
      simp [hpos, h2]

/-- C5: the claim says a settling task leaves the running set and
triggers admission of the next queued task, so a size-2 pool with five
enqueued immediate tasks eventually fulfills all five.  The code
refutes this: the completion hook (task-pool.ts line 52) only deletes
the task from the running set and never re-runs the admission loop, so
after tasks 1 and 2 settle, tasks 3, 4 and 5 are still queued (paused,
never started) and the running set is empty.  This theorem evaluates
the embedded pool on that failing trace. -/
theorem c5_no_admission_on_completion :
    poolTrace (poolInit 2)
        [PoolEv.add 1, PoolEv.add 2, PoolEv.add 3, PoolEv.add 4, PoolEv.add 5,
         PoolEv.complete 1, PoolEv.complete 2] =
      { size := 2, queue := [3, 4, 5], running := [], started := [1, 2] } := by
  decide

/-- C6: constructing `race` / `all` / `allSettled` / `any` leaves every
member future untouched (the member list after construction is exactly
the member list before, so a PENDING member stays PENDING); only
starting the combinator itself (via `start()` or `then()`) invokes its
stored closure, which subscribes to — and thereby starts — every
member. -/
theorem c6_combinators_defer_members (members : List FutureSt) :
    (futureRace members).members = members ∧
    (futureAll members).members = members ∧
    (futureAllSettled members).members = members ∧
    (futureAny members).members = members ∧
    (futureRace members).comb.state = PENDING ∧
    (combStart (futureRace members)).members = members.map invokeTask ∧
    (combStart (futureAll members)).members = members.map invokeTask ∧
    (combStart (futureAllSettled members)).members = members.map invokeTask ∧
    (combStart (futureAny members)).members = members.map invokeTask ∧
    (∀ cancel : Bool, (invokeTask (futureInit cancel)).state = RUNNING ∧
      (invokeTask (futureInit cancel)).invocations = 1) := by
  refine ⟨rfl, rfl, rfl, rfl, rfl, ?_, ?_, ?_, ?_, fun cancel => ⟨rfl, rfl⟩⟩ <;>
    simp [combStart, futureRace, futureAll, futureAllSettled, futureAny, futureInit]

/-- C7: calling `cancel()` on a Future constructed without the
cancellation option throws an immediate synchronous error (modelled as
`none`), while on a cancellation-enabled Future in a non-terminal state
it transitions the state to CANCELLED, recording the cancellation
exception and clearing the task slot. -/
theorem c7_cancel_gate (s : FutureSt) :
    (s.canCancel = false → cancelStep s = none) ∧
    (s.canCancel = true → isTerminalState s.state = false →
      cancelStep s = some { s with
        state := CANCELLED
        exception := some Exn.cancelledExn
        taskAlive := false }) := by
  constructor
  · intro hc
    simp [cancelStep, hc]
  · intro hc ht
    simp [cancelStep, hc, resolvedStep, ht]

/-- Witness for C7: a fresh future without the cancel option throws on
`cancel()`, and a fresh cancellation-enabled future is CANCELLED by it. -/
theorem c7_cancel_gate_witness :
    cancelStep (futureInit false) = none ∧
    cancelStep (futureInit true) = some { futureInit true with
      state := CANCELLED
      exception := some Exn.cancelledExn
      taskAlive := false } :=
  ⟨(c7_cancel_gate (futureInit false)).1 rfl, (c7_cancel_gate (futureInit true)).2 rfl rfl⟩

/-- C8: from a running task with pause depth 0, N `pause()` calls
followed by N `resume()` calls return the state to RUNNING with depth
0; a `resume()` when the depth is already 0 is a complete no-op; and
neither `pause()` nor `resume()` can drive a nonnegative depth counter
negative. -/
theorem c8_pause_resume_balance (s : FS) (n : Nat) :
    (s.state = RUNNING → s.pauseLevel = 0 →
      ((fsResume)^[n] ((fsPause)^[n] s)).state = RUNNING ∧
      ((fsResume)^[n] ((fsPause)^[n] s)).pauseLevel = 0) ∧
    (s.pauseLevel = 0 → fsResume s = s) ∧
    (0 ≤ s.pauseLevel → 0 ≤ (fsResume s).pauseLevel ∧ 0 ≤ (fsPause s).pauseLevel) := by
  obtain ⟨st, lv, g, e⟩ := s
  refine ⟨?_, ?_, ?_⟩
  · intro hst hlv
    simp only at hst hlv
    subst hst
    subst hlv
    cases n with
    | zero =>
      simp
    | succ m =>
      have hp1 : fsPause ⟨RUNNING, 0, g, e⟩ = ⟨PAUSED, 1, some false, e⟩ := by
        simp [fsPause, setPause]
      have hpit : (fsPause)^[m + 1] (⟨RUNNING, 0, g, e⟩ : FS) =
          ⟨PAUSED, (m : Int) + 1, some false, e⟩ := by
        rw [Function.iterate_succ_apply, hp1, fsPause_iterate_paused]
        congr 1
        ring
      have hrit : (fsResume)^[m + 1] (⟨PAUSED, (m : Int) + 1, some false, e⟩ : FS) =
          ⟨RUNNING, 0, some true, e⟩ := by
        rw [fsResume_iterate_paused]
        have h3 : ¬(m + 1 ≤ m) := by omega
        rw [if_neg h3]
      rw [hpit, hrit]
      exact ⟨rfl, rfl⟩
  · intro hlv
    simp only at hlv
    subst hlv
    exact fsResume_levelZero st g e
  · intro hge
    constructor
    · unfold fsResume
      by_cases hpos : lv > 0
      · simp only [hpos, if_true]
        split <;> simp <;> omega
      · simp only [hpos, if_false]
        exact hge
    · have hge2 : (0 : Int) ≤ lv := hge
      simp only [fsPause, setPause]
      split <;> (try split) <;> simp <;> omega

/-- Witness for C8: two pauses then two resumes on a concrete running
state return it to RUNNING at depth 0, a resume at depth 0 is a no-op,
and the depth stays nonnegative. -/
theorem c8_pause_resume_balance_witness :
    ((fsResume)^[2] ((fsPause)^[2] (⟨RUNNING, 0, none, none⟩ : FS))).state = RUNNING ∧
    ((fsResume)^[2] ((fsPause)^[2] (⟨RUNNING, 0, none, none⟩ : FS))).pauseLevel = 0 ∧
    fsResume ⟨RUNNING, 0, none, none⟩ = ⟨RUNNING, 0, none, none⟩ ∧
    0 ≤ (fsResume (⟨RUNNING, 0, none, none⟩ : FS)).pauseLevel := by
  obtain ⟨h1, h2, h3⟩ := c8_pause_resume_balance ⟨RUNNING, 0, none, none⟩ 2
  exact ⟨(h1 rfl rfl).1, (h1 rfl rfl).2, h2 rfl, (h3 (by norm_num)).1⟩

/-- C9: the claim says the arithmetic-mean reducer fed 10, 20, 30 yields
20.  The code refutes this: `arithmetic_mean` (reducers.ts lines 11-23)
never folds the received value into its accumulator `m`, so after
receiving the three values and the sentinel it returns 0, not the mean.
This theorem evaluates the embedded reducer on that failing input. -/
theorem c9_arithmetic_mean_returns_zero :
    arithmeticMeanRun [(some 10, 0), (some 20, 1), (some 30, 2), (none, -1)] =
      ReducerOutcome.returned 0 ∧
    ReducerOutcome.returned 0 ≠ ReducerOutcome.returned 20 := by
  decide

/-- C10: the claim says `peek()` always returns an element with minimal
key.  The code refutes this: the sift-up loop of `MinHeap.add`
(part_013 lines 60-67) never recomputes the two keys it compares, so a
newly added element can climb past ancestors with smaller keys.  After
adding 1, 5, 2, 3 under the identity key the heap array is [3, 1, 2, 5]:
`peek()` returns 3 while the smaller element 1 is still stored.  This
theorem evaluates the embedded heap on that failing input. -/
theorem c10_minheap_peek_not_minimal :
    minHeapOfList (fun k => k) [1, 5, 2, 3] = #[3, 1, 2, 5] ∧
    minHeapPeek (minHeapOfList (fun k => k) [1, 5, 2, 3]) = 3 ∧
    (1 : Int) ∈ (minHeapOfList (fun k => k) [1, 5, 2, 3]).toList ∧
    (fun (k : Int) => k) 1 < (fun (k : Int) => k) (minHeapPeek (minHeapOfList (fun k => k) [1, 5, 2, 3])) := by
  decide

end BetterFuture
